import Mathlib

/-!
Verification of the subplot-assembly core of `cufflinks/tools.py`.

The Python module manipulates plotly figures, which are dictionary-like
objects.  We embed them shallowly:

* a dictionary is an association list `List (String × V)` with the usual
  Python semantics — insertion of an existing key overwrites in place,
  insertion of a fresh key appends at the end, lookup finds the (unique)
  binding;
* a *trace* is such a dictionary, a figure (`Fig`) is a list of traces
  (`fig['data']`) plus a layout dictionary (`fig['layout']`);
* the skeleton figure returned by the external `make_subplots` primitive
  is `SP`: a grid reference (rows of cells, each cell either `none` — a
  blank cell — or a list of axis-id strings such as `"x2"`), a trace
  list and a layout dictionary.

Errors raised by the repository code (`raise Exception` for a too-small
shape, the uncaught `StopIteration` when the grid-reference generator is
exhausted) are modelled by the error type `Err`, using the names the
specification gives them.
-/

/-- Values stored in figure/layout dictionaries.  The claims never depend
on the value type, only on equality, so a small inductive suffices. -/
inductive Val
  | s (str : String)
  | n (num : Int)
  | b (flag : Bool)
  | list (items : List Int)
deriving DecidableEq, Repr

/-- Python `d[k] = v`: overwrite the existing binding in place, else
append a new binding at the end. -/
def dset {V : Type} : List (String × V) → String → V → List (String × V)
  | [], k, v => [(k, v)]
  | (k', v') :: rest, k, v =>
    if k' = k then (k, v) :: rest else (k', v') :: dset rest k v

/-- Python `d.get(k)`: first (unique) binding of the key. -/
def dget {V : Type} : List (String × V) → String → Option V
  | [], _ => none
  | (k', v) :: rest, k => if k' = k then some v else dget rest k

/-- A trace (`fig['data'][i]`) is a dictionary. -/
abbrev Trace := List (String × Val)

/-- A plotly figure: `data` (list of traces) and `layout` (dictionary).
From `tools.py`, figures are consumed as `fig['data']` / `fig['layout']`. -/
structure Fig where
  data : List Trace
  layout : List (String × Val)
deriving DecidableEq, Repr

/-- `get_base_layout(figs)` from `tools.py`: start from `{}` and, for the
figures in order, write every `(k, v)` of `fig['layout']` into the
accumulator (`layout[k] = v`). -/
def get_base_layout (figs : List Fig) : List (String × Val) :=
  figs.foldl (fun layout fig =>
    fig.layout.foldl (fun l p => dset l p.1 p.2) layout) []

theorem dget_dset {V : Type} (d : List (String × V)) (k k' : String) (v : V) :
    dget (dset d k v) k' = if k' = k then some v else dget d k' := by
  induction d with
  | nil =>
    simp only [dset, dget]
    by_cases h : k' = k
    · rw [if_pos h.symm, if_pos h]
    · rw [if_neg (fun hk => h hk.symm), if_neg h]
  | cons p rest ih =>
    obtain ⟨k0, v0⟩ := p
    simp only [dset]
    by_cases h0 : k0 = k
    · rw [if_pos h0]
      simp only [dget]
      by_cases h' : k' = k
      · rw [if_pos h'.symm, if_pos h']
      · rw [if_neg (fun hk => h' hk.symm), if_neg h',
          if_neg (fun hk : k0 = k' => h' (hk.symm.trans h0))]
    · rw [if_neg h0]
      simp only [dget]
      by_cases h1 : k0 = k'
      · rw [if_pos h1, if_neg (fun hk : k' = k => h0 (h1.trans hk)), if_pos h1]
      · rw [if_neg h1, ih]
        by_cases h2 : k' = k
        · rw [if_pos h2, if_pos h2]
        · rw [if_neg h2, if_neg h2, if_neg h1]

theorem dget_eq_none_of_not_mem {V : Type} (d : List (String × V)) (k : String)
    (h : k ∉ d.map Prod.fst) : dget d k = none := by
  induction d with
  | nil => rfl
  | cons p rest ih =>
    obtain ⟨k0, v0⟩ := p
    simp only [List.map_cons, List.mem_cons] at h
    push_neg at h
    simp only [dget, if_neg (fun hk : k0 = k => h.1 hk.symm), ih h.2]

/-- Folding the writes of one figure's layout over an accumulator: a key
present in the written entries takes the entry value (entries are a
Python dict, hence have unique keys), otherwise the accumulator value
survives. -/
theorem dget_fold {V : Type} (entries : List (String × V)) :
    ∀ (init : List (String × V)) (k : String),
      (entries.map Prod.fst).Nodup →
      dget (entries.foldl (fun l p => dset l p.1 p.2) init) k
        = (dget entries k).orElse (fun _ => dget init k) := by
  induction entries with
  | nil => intro init k _; simp [dget]
  | cons p rest ih =>
    intro init k hnd
    obtain ⟨k0, v0⟩ := p
    simp only [List.map_cons, List.nodup_cons] at hnd
    obtain ⟨hk0, hrest⟩ := hnd
    simp only [List.foldl_cons]
    rw [ih (dset init k0 v0) k hrest, dget_dset]
    by_cases h : k0 = k
    · subst h
      have : dget rest k0 = none := dget_eq_none_of_not_mem rest k0 hk0
      simp [dget, this]
    · have : ¬ k = k0 := fun hk => h hk.symm
      simp only [dget, if_neg h, if_neg this]

theorem findSome?_append_single {α β : Type} (l : List α) (g : α → Option β) (a : α) :
    (l ++ [a]).findSome? g = (l.findSome? g).orElse (fun _ => g a) := by
  induction l with
  | nil =>
    simp only [List.nil_append, List.findSome?_cons, List.findSome?_nil]
    cases g a <;> simp [Option.orElse]
  | cons x l ih =>
    simp only [List.cons_append, List.findSome?_cons]
    cases g x <;> simp [Option.orElse, ih]

/-- Folding the whole figure list: a key looks up to the value written
by the *last* figure in input order that binds it (the first one found
scanning the reversed list), else to the accumulator. -/
theorem dget_get_base_layout_fold (figs : List Fig) :
    ∀ (init : List (String × Val)) (k : String),
      (∀ f ∈ figs, (f.layout.map Prod.fst).Nodup) →
      dget (figs.foldl (fun layout fig =>
          fig.layout.foldl (fun l p => dset l p.1 p.2) layout) init) k
        = (figs.reverse.findSome? (fun f => dget f.layout k)).orElse
            (fun _ => dget init k) := by
  induction figs with
  | nil =>
    intro init k _
    simp only [List.foldl_nil, List.reverse_nil, List.findSome?_nil]
    cases dget init k <;> simp [Option.orElse]
  | cons f fs ih =>
    intro init k hwf
    simp only [List.foldl_cons, List.reverse_cons]
    rw [ih _ k (fun g hg => hwf g (List.mem_cons_of_mem f hg)),
      dget_fold f.layout _ k (hwf f (List.mem_cons_self f fs)),
      findSome?_append_single]
    cases fs.reverse.findSome? (fun f => dget f.layout k) <;>
      cases dget f.layout k <;> simp [Option.orElse]

/-- Claim C9: for *every* ordered sequence of figures, `get_base_layout`
(the spec's `mergeLayouts`) returns the key-by-key union of their layout
mappings in which, on collision, the later figure in input order wins:
every key looks up to the value of the last figure binding it (the first
binding found when the input order is scanned from the end), keys bound
by only one figure keep that figure's value (so disjoint layouts give
the plain union), and the empty input yields the empty mapping.  The
figure layouts are Python dicts, hence duplicate-free. -/
theorem get_base_layout_last_wins (figs : List Fig)
    (hwf : ∀ f ∈ figs, (f.layout.map Prod.fst).Nodup) :
    (∀ k, dget (get_base_layout figs) k
        = figs.reverse.findSome? (fun f => dget f.layout k)) ∧
    get_base_layout [] = [] := by
  refine ⟨fun k => ?_, rfl⟩
  rw [get_base_layout, dget_get_base_layout_fold figs [] k hwf]
  cases figs.reverse.findSome? (fun f => dget f.layout k) <;>
    simp [dget, Option.orElse]

def figL1 : Fig := { data := [], layout := [("shared", Val.n 1), ("onlyA", Val.n 10)] }

def figL2 : Fig := { data := [], layout := [("shared", Val.n 2), ("onlyB", Val.n 20)] }

def figL3 : Fig := { data := [], layout := [("shared", Val.n 3), ("onlyC", Val.n 30)] }

/-- Witness for C9 at a three-figure list whose layouts all share the
key `shared` (the third figure's value wins) and each own a private
key. -/
theorem get_base_layout_last_wins_w :
    (∀ k, dget (get_base_layout [figL1, figL2, figL3]) k
        = ([figL1, figL2, figL3] : List Fig).reverse.findSome?
            (fun f => dget f.layout k)) ∧
    get_base_layout [] = [] :=
  get_base_layout_last_wins [figL1, figL2, figL3] (by decide)

/-!
### The `subplots` function (`tools.py`, lines 152-187)

`subplots` first resolves the grid shape, then calls the external
`make_subplots` wrapper `get_subplots` to obtain a skeleton figure `sp`
with a grid reference `sp._grid_ref`; since that primitive is an
external collaborator, the skeleton is a parameter of the embedding.
It then walks the flattened grid reference with a generator, skipping
`None` (blank) cells, stamps every trace of every figure with the axis
ids of its cell, appends the stamped traces to `sp['data']` and finally
deletes the layout keys whose *last character* is a digit greater than
the number of figures.
-/

/-- Failures of the repository code, under the names the specification
gives them: the `raise Exception("Invalid shape ...")` of `subplots`
(`InvalidShapeError`) and the uncaught `StopIteration` of the exhausted
grid-reference generator (`GridExhaustedError`). -/
inductive Err
  | invalidShape
  | gridExhausted
deriving DecidableEq, Repr

/-- One cell's axis references, e.g. `["x2", "y2"]` (`sp._grid_ref` entries). -/
abbrev AxisSet := List String

/-- The skeleton figure returned by the external subplot-grid primitive:
grid reference (`none` marks a blank cell), pre-existing trace list and
layout dictionary. -/
structure SP where
  grid_ref : List (List (Option AxisSet))
  data : List Trace
  layout : List (String × Val)
deriving DecidableEq, Repr

/-- Shape resolution of `subplots` (lines 155-165): with an explicit
`shape=(rows, cols)`, fail when `len(figures) > rows*cols`; without a
shape, use `(1, 1)` for a single figure, else `cols=2` and
`rows = n/2 + n%2` (Python 2 integer division). -/
def deriveShape (n : Nat) (shape : Option (Nat × Nat)) : Except Err (Nat × Nat) :=
  match shape with
  | some (rows, cols) =>
    if rows * cols < n then .error .invalidShape else .ok (rows, cols)
  | none =>
    if n = 1 then .ok (1, 1) else .ok (n / 2 + n % 2, 2)

/-- `'{0}axis'.format(axe[0])`: the first character of the axis id
followed by `"axis"` (`"x2"` yields `"xaxis"`). -/
def axisKey (axe : String) : String :=
  String.mk (axe.data.take 1) ++ "axis"

/-- Lines 177-178: for every axis id of the cell, write the binding
`{letter}axis ↦ axe` into the trace dictionary (in-place `update`). -/
def stampTrace (t : Trace) (lr : AxisSet) : Trace :=
  lr.foldl (fun tr axe => dset tr (axisKey axe) (Val.s axe)) t

/-- The `while True: lr = list_ref.next() ... if lr is not None: break`
walk (lines 172-175): advance the generator past blank cells; an empty
generator raises `StopIteration`, modelled as `gridExhausted`. -/
def popCell : List (Option AxisSet) → Except Err (AxisSet × List (Option AxisSet))
  | [] => .error .gridExhausted
  | none :: rest => popCell rest
  | some lr :: rest => .ok (lr, rest)

/-- The main loop of `subplots` (lines 171-179): for each figure, pop
the next eligible cell, stamp the figure's traces with the cell's axis
ids and append them to the output trace list.  Because the Python
`update` mutates the input traces in place, the loop also returns the
post-call state of the input figures (their traces stamped), and the
unconsumed tail of the grid-reference generator. -/
def assembleLoop : List Fig → List (Option AxisSet) →
    Except Err (List Trace × List Fig × List (Option AxisSet))
  | [], cells => .ok ([], [], cells)
  | fig :: figs, cells =>
    match popCell cells with
    | .error e => .error e
    | .ok (lr, rest) =>
      match assembleLoop figs rest with
      | .error e => .error e
      | .ok (dta, mfigs, remaining) =>
        .ok (fig.data.map (fun t => stampTrace t lr) ++ dta,
             { fig with data := fig.data.map (fun t => stampTrace t lr) } :: mfigs,
             remaining)

/-- `int(k[-1])` in the prune loop: the last character of the key when
it is a decimal digit; `none` when the key is empty (`IndexError`) or
the character is not a digit (`ValueError`) — both swallowed by the
bare `except: pass`. -/
def lastCharDigit (k : String) : Option Nat :=
  match k.data.getLast? with
  | some c => if c.isDigit then some (c.toNat - Char.toNat '0') else none
  | none => none

/-- A layout key survives the prune loop (lines 181-186) unless its last
character is a digit strictly greater than the number of figures. -/
def keepKey (k : String) (n : Nat) : Bool :=
  match lastCharDigit k with
  | some d => decide (d ≤ n)
  | none => true

/-- The `# Remove extra plots` loop of `subplots` (lines 180-186):
delete every layout key whose last character is a digit exceeding
`len(figures)`; all other keys (including the ones where `int(k[-1])`
raises) are kept, in order. -/
def pruneLayout (layout : List (String × Val)) (n : Nat) : List (String × Val) :=
  layout.filter (fun p => keepKey p.1 n)

/-- `subplots(figures, shape, ...)` (lines 152-187), with the skeleton
`sp` produced by the external `get_subplots`/`make_subplots` call passed
as a parameter.  Returns the combined figure together with the post-call
state of the input figures (which the loop mutates in place). -/
def subplots (figs : List Fig) (shape : Option (Nat × Nat)) (sp : SP) :
    Except Err (SP × List Fig) :=
  match deriveShape figs.length shape with
  | .error e => .error e
  | .ok _ =>
    match assembleLoop figs sp.grid_ref.flatten with
    | .error e => .error e
    | .ok (dta, mfigs, _) =>
      .ok ({ sp with data := sp.data ++ dta,
                     layout := pruneLayout sp.layout figs.length }, mfigs)

/-- Claim C2: an explicit shape `(rows, cols)` with `rows*cols` smaller
than the number of figures makes `subplots` fail with
`InvalidShapeError` (the `raise Exception` at line 158), whatever the
skeleton looks like. -/
theorem subplots_invalid_shape (figs : List Fig) (r c : Nat) (sp : SP)
    (h : r * c < figs.length) :
    subplots figs (some (r, c)) sp = .error .invalidShape := by
  simp [subplots, deriveShape, h]

def figEmptyA : Fig := { data := [], layout := [] }

def spTrivial : SP := { grid_ref := [[some ["x1", "y1"]]], data := [], layout := [] }

/-- Witness for C2: the spec's own example — two charts forced into a
`(1, 1)` grid. -/
theorem subplots_invalid_shape_w :
    1 * 1 < ([figEmptyA, figEmptyA] : List Fig).length ∧
    subplots [figEmptyA, figEmptyA] (some (1, 1)) spTrivial = .error .invalidShape :=
  ⟨by decide, subplots_invalid_shape [figEmptyA, figEmptyA] 1 1 spTrivial (by decide)⟩

/-- Claim C3: without an explicit shape, `subplots` derives `(1, 1)` for
one figure and `cols = 2`, `rows = ⌈n/2⌉` for `n > 1` figures, so the
derived grid always satisfies `rows*cols ≥ n` and `cols ≤ 2`. -/
theorem deriveShape_auto (n : Nat) (_hn : 1 ≤ n) :
    ∃ r c, deriveShape n none = .ok (r, c) ∧
      (n = 1 → r = 1 ∧ c = 1) ∧
      (1 < n → c = 2 ∧ r = (n + 1) / 2) ∧
      n ≤ r * c ∧ c ≤ 2 := by
  by_cases h1 : n = 1
  · exact ⟨1, 1, by simp [deriveShape, h1], fun _ => ⟨rfl, rfl⟩,
      fun h => absurd h1 (by omega), by omega, by omega⟩
  · refine ⟨n / 2 + n % 2, 2, by simp [deriveShape, h1], fun h => absurd h h1,
      fun _ => ⟨rfl, by omega⟩, by omega, by omega⟩

/-- Witness for C3 at `n = 3`: shape `(2, 2)`. -/
theorem deriveShape_auto_w :
    ∃ r c, deriveShape 3 none = .ok (r, c) ∧
      (3 = 1 → r = 1 ∧ c = 1) ∧
      (1 < 3 → c = 2 ∧ r = (3 + 1) / 2) ∧
      3 ≤ r * c ∧ c ≤ 2 :=
  deriveShape_auto 3 (by decide)

/-!
### The grid-reference walk

`cells.filterMap id` lists the *eligible* (non-blank) cells of a
flattened grid reference, in walk order.
-/

theorem popCell_of_no_eligible (cells : List (Option AxisSet))
    (h : cells.filterMap id = []) : popCell cells = .error .gridExhausted := by
  induction cells with
  | nil => rfl
  | cons c rest ih =>
    cases c with
    | none => exact ih h
    | some a => simp [List.filterMap_cons] at h

theorem popCell_of_eligible (cells : List (Option AxisSet)) (lr : AxisSet)
    (lrs : List AxisSet) (h : cells.filterMap id = lr :: lrs) :
    ∃ rest, popCell cells = .ok (lr, rest) ∧ rest.filterMap id = lrs := by
  induction cells with
  | nil => simp [List.filterMap] at h
  | cons c rest ih =>
    cases c with
    | none => exact ih h
    | some a =>
      simp only [List.filterMap_cons, id, List.cons.injEq] at h
      exact ⟨rest, by simp [popCell, h.1], h.2⟩

/-- Master lemma for the assembly loop: when there are at least as many
eligible cells as figures, the loop succeeds; the output traces are the
concatenation, in input order, of each figure's traces stamped with the
axis ids of its (the next eligible) cell; the post-call input figures
are exactly those stamped figures; and the unconsumed tail of the
generator still holds every eligible cell beyond the first
`figs.length` ones. -/
theorem assembleLoop_spec (figs : List Fig) :
    ∀ cells : List (Option AxisSet),
      figs.length ≤ (cells.filterMap id).length →
      ∃ remaining,
        assembleLoop figs cells = .ok
          (((figs.zip (cells.filterMap id)).map
              (fun p => p.1.data.map (fun t => stampTrace t p.2))).flatten,
           (figs.zip (cells.filterMap id)).map
              (fun p => { p.1 with data := p.1.data.map (fun t => stampTrace t p.2) }),
           remaining) ∧
        remaining.filterMap id = (cells.filterMap id).drop figs.length := by
  induction figs with
  | nil =>
    intro cells _
    exact ⟨cells, rfl, by simp⟩
  | cons fig figs ih =>
    intro cells h
    obtain ⟨lr, lrs, helig⟩ : ∃ lr lrs, cells.filterMap id = lr :: lrs := by
      cases hc : cells.filterMap id with
      | nil => rw [hc] at h; simp at h
      | cons a b => exact ⟨a, b, rfl⟩
    obtain ⟨rest, hpop, hrest⟩ := popCell_of_eligible cells lr lrs helig
    have h' : figs.length ≤ (rest.filterMap id).length := by
      rw [hrest]
      rw [helig] at h
      simpa using h
    obtain ⟨remaining, hrec, hrem⟩ := ih rest h'
    refine ⟨remaining, ?_, ?_⟩
    · simp only [assembleLoop, hpop, hrec, helig, hrest, List.zip_cons_cons,
        List.map_cons, List.flatten_cons]
    · rw [hrem, hrest, helig]
      simp

/-- When the figures outnumber the eligible cells, the walk exhausts the
generator: the loop fails with `gridExhausted` (the uncaught
`StopIteration`). -/
theorem assembleLoop_exhausted (figs : List Fig) :
    ∀ cells : List (Option AxisSet),
      (cells.filterMap id).length < figs.length →
      assembleLoop figs cells = .error .gridExhausted := by
  induction figs with
  | nil => intro cells h; simp at h
  | cons fig figs ih =>
    intro cells h
    cases hc : cells.filterMap id with
    | nil =>
      simp [assembleLoop, popCell_of_no_eligible cells hc]
    | cons lr lrs =>
      obtain ⟨rest, hpop, hrest⟩ := popCell_of_eligible cells lr lrs hc
      have h' : (rest.filterMap id).length < figs.length := by
        rw [hrest]
        rw [hc] at h
        simpa using h
      simp [assembleLoop, hpop, ih rest h']

/-- The shape check succeeds whenever the explicit shape (if any) is big
enough. -/
theorem deriveShape_ok_of (n : Nat) (shape : Option (Nat × Nat))
    (hsh : ∀ r c, shape = some (r, c) → n ≤ r * c) :
    ∃ rc, deriveShape n shape = .ok rc := by
  cases shape with
  | none =>
    by_cases h1 : n = 1
    · exact ⟨(1, 1), by simp [deriveShape, h1]⟩
    · exact ⟨(n / 2 + n % 2, 2), by simp [deriveShape, h1]⟩
  | some rc =>
    obtain ⟨r, c⟩ := rc
    have := hsh r c rfl
    exact ⟨(r, c), by simp [deriveShape]; omega⟩

/-- Sum of the stamped trace-block lengths over the zip with enough
cells: the per-figure trace counts. -/
theorem stamped_flatten_length (figs : List Fig) :
    ∀ lrs : List AxisSet, figs.length ≤ lrs.length →
      (((figs.zip lrs).map
          (fun p => p.1.data.map (fun t => stampTrace t p.2))).flatten).length
        = (figs.map (fun f => f.data.length)).sum := by
  induction figs with
  | nil => intro lrs _; simp
  | cons f fs ih =>
    intro lrs h
    cases lrs with
    | nil => simp at h
    | cons lr lrs =>
      simp only [List.zip_cons_cons, List.map_cons, List.flatten_cons,
        List.length_append, List.length_map, List.sum_cons]
      rw [ih lrs (by simpa using h)]

/-- Claim C1: with as many eligible (non-blank) grid cells as figures
and an admissible shape, `subplots` succeeds; the combined figure's
trace list is exactly the concatenation, in input-figure order, of each
figure's traces stamped with one `{letter}axis ↦ axe` binding per axis
id of its assigned cell (the figures take the eligible cells in walk
order); the output therefore holds exactly the sum of the input trace
counts; and the walk consumes exactly `figs.length` eligible cells — the
unconsumed tail of the generator still holds every further eligible
cell. -/
theorem subplots_assemble_traces (figs : List Fig) (shape : Option (Nat × Nat)) (sp : SP)
    (hsh : ∀ r c, shape = some (r, c) → figs.length ≤ r * c)
    (hcap : figs.length ≤ ((sp.grid_ref.flatten).filterMap id).length)
    (hdata : sp.data = []) :
    ∃ out mfigs remaining,
      subplots figs shape sp = .ok (out, mfigs) ∧
      out.data = ((figs.zip ((sp.grid_ref.flatten).filterMap id)).map
          (fun p => p.1.data.map (fun t => stampTrace t p.2))).flatten ∧
      out.data.length = (figs.map (fun f => f.data.length)).sum ∧
      assembleLoop figs sp.grid_ref.flatten = .ok (out.data, mfigs, remaining) ∧
      remaining.filterMap id
        = ((sp.grid_ref.flatten).filterMap id).drop figs.length := by
  obtain ⟨rc, hds⟩ := deriveShape_ok_of figs.length shape hsh
  obtain ⟨remaining, hloop, hrem⟩ := assembleLoop_spec figs sp.grid_ref.flatten hcap
  refine ⟨{ sp with
              data := sp.data ++ ((figs.zip ((sp.grid_ref.flatten).filterMap id)).map
                (fun p => p.1.data.map (fun t => stampTrace t p.2))).flatten,
              layout := pruneLayout sp.layout figs.length },
          (figs.zip ((sp.grid_ref.flatten).filterMap id)).map
            (fun p => { p.1 with data := p.1.data.map (fun t => stampTrace t p.2) }),
          remaining, ?_, ?_, ?_, ?_, hrem⟩
  · simp [subplots, hds, hloop]
  · simp [hdata]
  · simp only [hdata, List.nil_append]
    exact stamped_flatten_length figs _ (by simpa using hcap)
  · simpa [hdata] using hloop

def trW1 : Trace := [("kind", Val.s "scatter")]

def trW2 : Trace := [("kind", Val.s "bar")]

def trW3 : Trace := [("kind", Val.s "histogram")]

def figW1 : Fig := { data := [trW1, trW2], layout := [] }

def figW2 : Fig := { data := [trW3], layout := [] }

/-- A 2×2 skeleton whose second cell is blank, with one spare cell. -/
def spW : SP :=
  { grid_ref := [[some ["x1", "y1"], none], [some ["x2", "y2"], some ["x3", "y3"]]],
    data := [], layout := [] }

/-- Witness for C1: two figures (three traces in total) over the
skeleton `spW` (three eligible cells, one blank). -/
theorem subplots_assemble_traces_w :
    ∃ out mfigs remaining,
      subplots [figW1, figW2] none spW = .ok (out, mfigs) ∧
      out.data = ((([figW1, figW2] : List Fig).zip
            ((spW.grid_ref.flatten).filterMap id)).map
          (fun p => p.1.data.map (fun t => stampTrace t p.2))).flatten ∧
      out.data.length = (([figW1, figW2] : List Fig).map (fun f => f.data.length)).sum ∧
      assembleLoop [figW1, figW2] spW.grid_ref.flatten = .ok (out.data, mfigs, remaining) ∧
      remaining.filterMap id
        = ((spW.grid_ref.flatten).filterMap id).drop ([figW1, figW2] : List Fig).length :=
  subplots_assemble_traces [figW1, figW2] none spW
    (fun r c h => nomatch h) (by decide) rfl

/-- Claim C4: when the grid (after skipping blank cells) has fewer
eligible cells than there are figures — and the shape check itself
passes — `subplots` fails with `GridExhaustedError`. -/
theorem subplots_grid_exhausted (figs : List Fig) (shape : Option (Nat × Nat)) (sp : SP)
    (hsh : ∀ r c, shape = some (r, c) → figs.length ≤ r * c)
    (h : ((sp.grid_ref.flatten).filterMap id).length < figs.length) :
    subplots figs shape sp = .error .gridExhausted := by
  obtain ⟨rc, hds⟩ := deriveShape_ok_of figs.length shape hsh
  simp [subplots, hds, assembleLoop_exhausted figs sp.grid_ref.flatten h]

/-- A skeleton whose only cell is blank. -/
def spBlank : SP := { grid_ref := [[none]], data := [], layout := [] }

/-- Witness for C4: one figure, a grid with a single blank cell — the
walk finds no eligible cell and fails. -/
theorem subplots_grid_exhausted_w :
    ((spBlank.grid_ref.flatten).filterMap id).length < ([figW2] : List Fig).length ∧
    subplots [figW2] none spBlank = .error .gridExhausted :=
  ⟨by decide,
   subplots_grid_exhausted [figW2] none spBlank (fun r c h => nomatch h) (by decide)⟩

/-!
### The layout-prune step (claims C5 and C10)

The `# Remove extra plots` loop inspects `int(k[-1])` — only the *last*
character of each key — so a key with a multi-digit suffix is judged by
its final digit alone.
-/

theorem keepKey_iff (k : String) (n : Nat) :
    keepKey k n = true ↔ ∀ d, lastCharDigit k = some d → d ≤ n := by
  unfold keepKey
  cases lastCharDigit k with
  | none => simp
  | some d => simp

/-- A skeleton with two eligible cells and a leftover axis entry whose
trailing numeric suffix is `12`. -/
def spX : SP :=
  { grid_ref := [[some ["x1", "y1"], some ["x2", "y2"]]], data := [],
    layout := [("xaxis12", Val.s "leftover")] }

/-- Counterexample to claim C5 as stated: with two charts, the layout
entry `xaxis12` has trailing numeric suffix `12 > 2`, so the claim says
it is removed — but `subplots` keeps it, because the prune loop only
reads the final character `'2'` and `2 ≤ 2`.  (The call succeeds and
returns the layout unchanged.) -/
theorem subplots_prune_cex :
    subplots [figEmptyA, figEmptyA] none spX = .ok (spX, [figEmptyA, figEmptyA]) ∧
    dget spX.layout "xaxis12" = some (Val.s "leftover") ∧
    2 < 12 :=
  ⟨rfl, rfl, by decide⟩

/-- Claim C5, amended: after assembling, `subplots` replaces the
skeleton's layout by its pruned version, which removes exactly those
entries whose *final character* is a digit strictly greater than the
number of charts (a multi-digit suffix is judged by its last digit
alone), and keeps every key whose last character is not a digit. -/
theorem subplots_prune_last_char (figs : List Fig) (shape : Option (Nat × Nat)) (sp : SP)
    (out : SP) (mfigs : List Fig) (h : subplots figs shape sp = .ok (out, mfigs)) :
    out.layout = pruneLayout sp.layout figs.length ∧
    ∀ p : String × Val,
      (p ∈ out.layout ↔ p ∈ sp.layout ∧
        ∀ d, lastCharDigit p.1 = some d → d ≤ figs.length) := by
  have hlay : out.layout = pruneLayout sp.layout figs.length := by
    unfold subplots at h
    cases hds : deriveShape figs.length shape with
    | error e => rw [hds] at h; exact absurd h (by simp)
    | ok rc =>
      rw [hds] at h
      cases hal : assembleLoop figs sp.grid_ref.flatten with
      | error e => rw [hal] at h; exact absurd h (by simp)
      | ok res =>
        obtain ⟨dta, mfs, rem⟩ := res
        rw [hal] at h
        simp only [Except.ok.injEq, Prod.mk.injEq] at h
        rw [← h.1]
  refine ⟨hlay, fun p => ?_⟩
  rw [hlay]
  unfold pruneLayout
  rw [List.mem_filter, keepKey_iff]

/-- Witness for the amended C5: for the concrete two-chart call of the
counterexample, the output layout is the pruned skeleton layout and the
membership characterization holds. -/
theorem subplots_prune_last_char_w :
    spX.layout = pruneLayout spX.layout ([figEmptyA, figEmptyA] : List Fig).length ∧
    ∀ p : String × Val,
      (p ∈ spX.layout ↔ p ∈ spX.layout ∧
        ∀ d, lastCharDigit p.1 = some d → d ≤ ([figEmptyA, figEmptyA] : List Fig).length) :=
  subplots_prune_last_char [figEmptyA, figEmptyA] none spX spX [figEmptyA, figEmptyA] rfl

/-- Claim C10 (implicit): the prune step judges a key by its final
character only.  An entry survives `pruneLayout` iff it was present and
it is *not* the case that its last character is a digit greater than the
chart count; an entry whose last character is not a digit always
survives; and the inspected digit of `"xaxis12"` is `2`, not `12`. -/
theorem pruneLayout_judges_last_char (layout : List (String × Val)) (n : Nat)
    (p : String × Val) :
    (p ∈ pruneLayout layout n ↔ p ∈ layout ∧
      ¬ ∃ d, lastCharDigit p.1 = some d ∧ n < d) ∧
    (lastCharDigit p.1 = none → (p ∈ pruneLayout layout n ↔ p ∈ layout)) ∧
    lastCharDigit "xaxis12" = some 2 := by
  refine ⟨?_, ?_, by decide⟩
  · unfold pruneLayout
    rw [List.mem_filter, keepKey_iff]
    constructor
    · rintro ⟨hp, hk⟩
      exact ⟨hp, fun ⟨d, hd, hlt⟩ => absurd (hk d hd) (by omega)⟩
    · rintro ⟨hp, hne⟩
      refine ⟨hp, fun d hd => ?_⟩
      by_contra hgt
      exact hne ⟨d, hd, by omega⟩
  · intro hnone
    unfold pruneLayout
    rw [List.mem_filter, keepKey_iff]
    simp [hnone]

/-- Witness for C10 at a concrete layout holding the single non-digit
key `title` with `n = 0`. -/
theorem pruneLayout_judges_last_char_w :
    ((("title", Val.s "t") ∈ pruneLayout [("title", Val.s "t")] 0 ↔
        ("title", Val.s "t") ∈ [("title", Val.s "t")] ∧
      ¬ ∃ d, lastCharDigit "title" = some d ∧ 0 < d) ∧
    (lastCharDigit "title" = none →
      (("title", Val.s "t") ∈ pruneLayout [("title", Val.s "t")] 0 ↔
        ("title", Val.s "t") ∈ [("title", Val.s "t")])) ∧
    lastCharDigit "xaxis12" = some 2) :=
  pruneLayout_judges_last_char [("title", Val.s "t")] 0 ("title", Val.s "t")

/-!
### Mutation of the input figures (claim C7)

Line 178 of `tools.py` runs `_.update({...})` on each trace `_` of the
*input* figures: the Python `dict.update` mutates the trace object in
place, and line 179 then appends that very object to the output.  The
input figures are therefore not left unchanged by the call.
-/

def trM : Trace := [("name", Val.s "t")]

def figM : Fig := { data := [trM], layout := [] }

def spM : SP := { grid_ref := [[some ["x1", "y1"]]], data := [], layout := [] }

/-- `figM` after the call: its trace was stamped in place with the axis
bindings of the assigned cell. -/
def figMStamped : Fig :=
  { data := [[("name", Val.s "t"), ("xaxis", Val.s "x1"), ("yaxis", Val.s "y1")]],
    layout := [] }

def spMOut : SP :=
  { grid_ref := [[some ["x1", "y1"]]],
    data := [[("name", Val.s "t"), ("xaxis", Val.s "x1"), ("yaxis", Val.s "y1")]],
    layout := [] }

/-- Counterexample to claim C7 as stated: `subplots` does *not* leave
the input figure unchanged — after the concrete call, the input figure's
trace carries the freshly written `xaxis`/`yaxis` bindings, so the
post-call figure differs from the figure that was passed in. -/
theorem subplots_mutation_cex :
    subplots [figM] none spM = .ok (spMOut, [figMStamped]) ∧ figMStamped ≠ figM :=
  ⟨rfl, by decide⟩

/-- Claim C7, amended: `subplots` mutates each input chart in place —
after a successful call, every input figure's traces have been stamped
with the axis bindings of the figure's assigned cell (and the combined
figure's trace list aliases exactly these mutated traces). -/
theorem subplots_stamps_input_figs (figs : List Fig) (shape : Option (Nat × Nat)) (sp : SP)
    (hsh : ∀ r c, shape = some (r, c) → figs.length ≤ r * c)
    (hcap : figs.length ≤ ((sp.grid_ref.flatten).filterMap id).length) :
    ∃ out, subplots figs shape sp = .ok (out,
      (figs.zip ((sp.grid_ref.flatten).filterMap id)).map
        (fun p => { p.1 with data := p.1.data.map (fun t => stampTrace t p.2) })) := by
  obtain ⟨rc, hds⟩ := deriveShape_ok_of figs.length shape hsh
  obtain ⟨remaining, hloop, _⟩ := assembleLoop_spec figs sp.grid_ref.flatten hcap
  exact ⟨_, by unfold subplots; rw [hds, hloop]⟩

/-- Witness for the amended C7 at the concrete mutating call. -/
theorem subplots_stamps_input_figs_w :
    ∃ out, subplots [figM] none spM = .ok (out,
      (([figM] : List Fig).zip ((spM.grid_ref.flatten).filterMap id)).map
        (fun p => { p.1 with data := p.1.data.map (fun t => stampTrace t p.2) })) :=
  subplots_stamps_input_figs [figM] none spM (fun r c h => nomatch h) (by decide)

/-!
### `scatter_matrix` (`tools.py`, lines 306-342; claims C6 and C8)

`scatter_matrix` asks the external chart constructor `df.iplot` for one
chart per ordered pair of column names and delegates the resulting list
to `subplots`.  The embedding records the chart-construction requests
and the parameters of the delegated call.
-/

/-- One chart-construction request issued to the external `df.iplot`
collaborator: `iplot(kind='histogram', keys=[i], bins=...)` on the
diagonal, `iplot(kind='scatter', mode='markers', x=j, y=i, size=...,
colors=[color])` off it. -/
inductive ChartReq
  | histogram (keys : List String) (bins : Nat)
  | scatter (mode x y : String) (size : Nat) (colors : List String)
deriving DecidableEq, Repr

/-- The double loop of `scatter_matrix` (lines 328-335): for every
ordered pair `(i, j)` of column names — `i` the outer (row) loop, `j`
the inner (column) loop — request a histogram of column `i` when
`i == j`, else a marker scatter with `x = j` and `y = i`. -/
def scatter_matrix_figs (columns : List String) (bins size : Nat) (color : String) :
    List ChartReq :=
  columns.flatMap (fun i => columns.map (fun j =>
    if i = j then ChartReq.histogram [i] bins
    else ChartReq.scatter "markers" j i size [color]))

/-- The parameters `scatter_matrix` hands to `subplots` (lines 339-340). -/
structure SubplotsCall where
  figs : List ChartReq
  shape : Option (Nat × Nat)
  shared_xaxes : Bool
  shared_yaxes : Bool
  horizontal_spacing : ℚ
  vertical_spacing : ℚ

/-- `scatter_matrix(df, theme, bins, color, size)` (lines 306-342):
build the chart-request list and delegate it to `subplots` with shape
`(n_columns, n_columns)`, no shared axes and the fixed spacings
`0.05`/`0.07`.  The theme-layout retouching (lines 336-338, on the
external `getLayout(theme)` object) and the final `bargap`/`showlegend`
update (line 341) concern no claim and are not modelled. -/
def scatter_matrix (columns : List String) (bins size : Nat) (color : String) :
    SubplotsCall :=
  { figs := scatter_matrix_figs columns bins size color
  , shape := some (columns.length, columns.length)
  , shared_xaxes := false
  , shared_yaxes := false
  , horizontal_spacing := 5 / 100
  , vertical_spacing := 7 / 100 }

theorem flatMap_length_const {α β : Type} (l : List α) (f : α → List β) (m : Nat)
    (hf : ∀ a, (f a).length = m) : (l.flatMap f).length = l.length * m := by
  induction l with
  | nil => simp
  | cons a l ih =>
    rw [List.flatMap_cons, List.length_append, hf, ih, List.length_cons]
    ring

/-- Row-major indexing into a flat map whose blocks all have length `m`:
entry `i*m + j` is entry `j` of block `i`. -/
theorem flatMap_getD_const {α β : Type} (l : List α) (f : α → List β) (m : Nat)
    (hf : ∀ a, (f a).length = m) (d : β) (d' : α) :
    ∀ i j, i < l.length → j < m →
      (l.flatMap f).getD (i * m + j) d = (f (l.getD i d')).getD j d := by
  induction l with
  | nil => intro i j hi _; simp at hi
  | cons a l ih =>
    intro i j hi hj
    rw [List.flatMap_cons]
    cases i with
    | zero =>
      rw [Nat.zero_mul, Nat.zero_add,
        List.getD_append _ _ _ _ (by rw [hf]; exact hj)]
      rfl
    | succ i =>
      have hsplit : (i + 1) * m + j = m + (i * m + j) := by ring
      rw [List.getD_append_right _ _ _ _ (by rw [hf]; omega),
        hf, hsplit, Nat.add_sub_cancel_left]
      exact ih i j (Nat.lt_of_succ_lt_succ hi) hj

theorem map_getD_lt {α β : Type} (l : List α) (g : α → β) (j : Nat)
    (hj : j < l.length) (d : β) (d' : α) :
    (l.map g).getD j d = g (l.getD j d') := by
  rw [List.getD_eq_getElem _ _ (by simpa using hj),
    List.getD_eq_getElem _ _ hj, List.getElem_map]

/-- Claim C8: for a table with `n ≥ 1` named columns, `scatter_matrix`
builds exactly one chart per ordered column pair in row-major order —
the chart at row-major position `i*n + j` is a histogram of column `i`
with `bins` buckets when the two names coincide, else a marker-only
scatter of `x = column j`, `y = column i` with the given `size` and
`color` — and delegates the `n*n` list to the subplot assembler with
shape `(n, n)`, no shared axes, `horizontal_spacing = 0.05` and
`vertical_spacing = 0.07`. -/
theorem scatter_matrix_builds_grid (columns : List String) (bins size : Nat)
    (color : String) (_hn : 1 ≤ columns.length) :
    ((scatter_matrix columns bins size color).figs.length
        = columns.length * columns.length) ∧
    (∀ i j, i < columns.length → j < columns.length →
      (scatter_matrix columns bins size color).figs.getD
          (i * columns.length + j) (ChartReq.histogram [] 0)
        = (if columns.getD i "" = columns.getD j "" then
             ChartReq.histogram [columns.getD i ""] bins
           else ChartReq.scatter "markers" (columns.getD j "") (columns.getD i "")
             size [color])) ∧
    (scatter_matrix columns bins size color).shape
        = some (columns.length, columns.length) ∧
    (scatter_matrix columns bins size color).shared_xaxes = false ∧
    (scatter_matrix columns bins size color).shared_yaxes = false ∧
    (scatter_matrix columns bins size color).horizontal_spacing = 5 / 100 ∧
    (scatter_matrix columns bins size color).vertical_spacing = 7 / 100 := by
  refine ⟨?_, ?_, rfl, rfl, rfl, rfl, rfl⟩
  · exact flatMap_length_const columns _ columns.length (fun a => by simp)
  · intro i j hi hj
    have hstep := flatMap_getD_const columns
      (fun i => columns.map (fun j =>
        if i = j then ChartReq.histogram [i] bins
        else ChartReq.scatter "markers" j i size [color]))
      columns.length (fun a => by simp) (ChartReq.histogram [] 0) "" i j hi hj
    calc (scatter_matrix columns bins size color).figs.getD
          (i * columns.length + j) (ChartReq.histogram [] 0)
        = (columns.map (fun y =>
            if columns.getD i "" = y then ChartReq.histogram [columns.getD i ""] bins
            else ChartReq.scatter "markers" y (columns.getD i "") size [color])).getD
            j (ChartReq.histogram [] 0) := hstep
      _ = _ := map_getD_lt columns _ j hj _ ""

/-- Witness for C8 on the spec's own two-column example `{a, b}`: the
figure list is the row-major `[hist a, scatter (b, a), scatter (a, b),
hist b]`, delegated with shape `(2, 2)`. -/
theorem scatter_matrix_builds_grid_w :
    ((scatter_matrix ["a", "b"] 10 2 "grey").figs.length
        = (["a", "b"] : List String).length * (["a", "b"] : List String).length) ∧
    (∀ i j, i < (["a", "b"] : List String).length →
        j < (["a", "b"] : List String).length →
      (scatter_matrix ["a", "b"] 10 2 "grey").figs.getD
          (i * (["a", "b"] : List String).length + j) (ChartReq.histogram [] 0)
        = (if (["a", "b"] : List String).getD i "" = (["a", "b"] : List String).getD j ""
           then ChartReq.histogram [(["a", "b"] : List String).getD i ""] 10
           else ChartReq.scatter "markers" ((["a", "b"] : List String).getD j "")
             ((["a", "b"] : List String).getD i "") 2 ["grey"])) ∧
    (scatter_matrix ["a", "b"] 10 2 "grey").shape
        = some ((["a", "b"] : List String).length, (["a", "b"] : List String).length) ∧
    (scatter_matrix ["a", "b"] 10 2 "grey").shared_xaxes = false ∧
    (scatter_matrix ["a", "b"] 10 2 "grey").shared_yaxes = false ∧
    (scatter_matrix ["a", "b"] 10 2 "grey").horizontal_spacing = 5 / 100 ∧
    (scatter_matrix ["a", "b"] 10 2 "grey").vertical_spacing = 7 / 100 :=
  scatter_matrix_builds_grid ["a", "b"] 10 2 "grey" (by decide)

/-- Claim C6 evidence: a zero-column table is *not* rejected by
`scatter_matrix` — the repository code contains no explicit check.  The
chart-request list is empty, the call is delegated with shape `(0, 0)`,
and the assembler's own shape check passes (`0 > 0*0` is false), so no
repository-side error is raised on this input; any failure can only
arise inside the external `make_subplots` primitive. -/
theorem scatter_matrix_zero_columns :
    (scatter_matrix [] 10 2 "grey").figs = [] ∧
    (scatter_matrix [] 10 2 "grey").shape = some (0, 0) ∧
    deriveShape 0 (some (0, 0)) = .ok (0, 0) := by
  refine ⟨rfl, rfl, ?_⟩
  simp [deriveShape]
